import Mathlib

/-!
Shallow embedding, over `ℚ`, of the legacy skeletal-animation decoder and
retargeting core of the `opengl-with-jank` repository:

* the quaternion/vector/matrix helpers and the GLA binary accessors of
  `src/tools/gla2ozz/gla_parser.cc`,
* the coordinate conversion of `coordinate_convert.h` (packed as
  `src/unnamed/part_007`),
* the clip-import loop of `GlaImporter::Import` in `gla2ozz.cc` (the
  repository packs two snapshots of this file: the one at
  `src/tools/gla2ozz/gla2ozz.cc` and a later one appended inside
  `src/shaders/skinned_fragment.glsl` that additionally contains the
  "Phase 1.5" root-motion extraction described by the specification; the
  embedding follows the later snapshot and the point of divergence is noted
  where it matters),
* the bone-mapping configuration of `bone_mapper.h` /
  `bone_mapper.cc` (the implementation is appended inside
  `src/scripts/platform/linux.sh`), and
* the per-frame retargeting loop of `ozz-retarget`'s `main`
  (`src/unnamed/part_006`).

C++ `float` arithmetic is modelled by exact rational arithmetic: a float
literal such as `0.0254f` is read as the exact rational `127/5000`, and
`std::sqrt` is modelled by `ratSqrt`, which is exact on perfect squares and
returns `0` elsewhere; every concrete evaluation below only takes square
roots of perfect squares, where the model and the real square root agree.
-/

namespace GlaVerify

/-- Rational square-root model of `std::sqrt`: on a rational that is the
square of a rational it returns that nonnegative square root, elsewhere `0`.
All concrete evaluations in this file apply it to perfect squares only. -/
def ratSqrt (q : ℚ) : ℚ :=
  if q ≤ 0 then 0
  else
    let n := Nat.sqrt q.num.toNat
    let d := Nat.sqrt q.den
    if n * n = q.num.toNat ∧ d * d = q.den then (n : ℚ) / (d : ℚ) else 0

/-- `ratSqrt` inverts squaring of nonnegative rationals. -/
theorem ratSqrt_sq (r : ℚ) (hr : 0 ≤ r) : ratSqrt (r * r) = r := by
  rcases eq_or_lt_of_le hr with h0 | h0
  · simp [ratSqrt, ← h0]
  · have hrr : 0 < r * r := mul_pos h0 h0
    obtain ⟨a, ha⟩ : ∃ a : ℕ, r.num = (a : ℤ) :=
      Int.eq_ofNat_of_zero_le (Rat.num_nonneg.mpr hr)
    have hnum : (r * r).num = (a : ℤ) * (a : ℤ) := by
      rw [Rat.mul_self_num, ha]
    have hden : (r * r).den = r.den * r.den := Rat.mul_self_den r
    have hnumt : (r * r).num.toNat = a * a := by
      rw [hnum]; exact_mod_cast Int.toNat_ofNat (a * a)
    unfold ratSqrt
    rw [if_neg (not_le.mpr hrr)]
    simp only [hnumt, hden, Nat.sqrt_eq, and_self, if_pos]
    rw [show ((a : ℚ) : ℚ) = ((r.num : ℚ)) by rw [ha]; push_cast; ring]
    exact Rat.num_div_den r

/-- 3-component vector over `ℚ` (models `ozz::math::Float3`). -/
structure Vec3 where
  x : ℚ
  y : ℚ
  z : ℚ
deriving DecidableEq

/-- Quaternion over `ℚ` (models `ozz::math::Quaternion`, scalar-last layout:
fields `x y z w`). -/
structure Quat where
  x : ℚ
  y : ℚ
  z : ℚ
  w : ℚ
deriving DecidableEq

def Vec3.zero : Vec3 := ⟨0, 0, 0⟩

def Vec3.one : Vec3 := ⟨1, 1, 1⟩

def Vec3.sub (a b : Vec3) : Vec3 := ⟨a.x - b.x, a.y - b.y, a.z - b.z⟩

/-- `ozz::math::Quaternion::identity()`. -/
def Quat.id : Quat := ⟨0, 0, 0, 1⟩

/-- Squared norm of a quaternion (the `len_sq` accumulators of the source). -/
def quatNormSq (q : Quat) : ℚ := q.x * q.x + q.y * q.y + q.z * q.z + q.w * q.w

/-- `QuaternionConjugate` (gla_parser.cc) / `QuatInverse` (part_006). -/
def quatConjugate (q : Quat) : Quat := ⟨-q.x, -q.y, -q.z, q.w⟩

/-- `QuaternionMultiply` (gla_parser.cc) / `QuatMul` (part_006); the two
sources use the identical component formulas. -/
def quatMultiply (a b : Quat) : Quat :=
  ⟨a.w * b.x + a.x * b.w + a.y * b.z - a.z * b.y,
   a.w * b.y - a.x * b.z + a.y * b.w + a.z * b.x,
   a.w * b.z + a.x * b.y - a.y * b.x + a.z * b.w,
   a.w * b.w - a.x * b.x - a.y * b.y - a.z * b.z⟩

/-- `QuaternionNormalize` (gla_parser.cc) and
`coord_convert::NormalizeQuaternion` (part_007): identical bodies; threshold
`1e-10f` on the squared norm, identity fallback. -/
def quatNormalize (q : Quat) : Quat :=
  if quatNormSq q < 1 / 10 ^ 10 then Quat.id
  else
    let invLen := 1 / ratSqrt (quatNormSq q)
    ⟨q.x * invLen, q.y * invLen, q.z * invLen, q.w * invLen⟩

/-- `QuatNormalize` of the retargeter (part_006): threshold `0.0001f` on the
norm itself (not its square), identity fallback. -/
def retargetQuatNormalize (q : Quat) : Quat :=
  let len := ratSqrt (quatNormSq q)
  if len > 1 / 10 ^ 4 then ⟨q.x / len, q.y / len, q.z / len, q.w / len⟩
  else Quat.id

/-- `RotateVectorByQuaternion` (gla_parser.cc): `q * v * conj q`. -/
def rotateVectorByQuaternion (q : Quat) (v : Vec3) : Vec3 :=
  let qv : Quat := ⟨v.x, v.y, v.z, 0⟩
  let r := quatMultiply (quatMultiply q qv) (quatConjugate q)
  ⟨r.x, r.y, r.z⟩

/-! ## Coordinate conversion (`coordinate_convert.h`, `src/unnamed/part_007`) -/

/-- `coord_convert::SCALE_FACTOR = 0.0254f`, read as the exact rational of
the decimal literal. -/
def SCALE_FACTOR : ℚ := 127 / 5000

/-- `coord_convert::ConvertPosition(x, y, z)`. -/
def convertPosition (x y z : ℚ) : Vec3 :=
  ⟨x * SCALE_FACTOR, z * SCALE_FACTOR, -y * SCALE_FACTOR⟩

/-- `ConvertPosition` overload on a vector. -/
def convertPositionV (v : Vec3) : Vec3 := convertPosition v.x v.y v.z

/-- `coord_convert::ConvertQuaternion(qx, qy, qz, qw)`. -/
def convertQuaternion (qx qy qz qw : ℚ) : Quat := ⟨qx, qz, -qy, qw⟩

/-- `ConvertQuaternion` overload on a quaternion. -/
def convertQuaternionQ (q : Quat) : Quat := convertQuaternion q.x q.y q.z q.w

/-! ## Compressed bone decompression (`GlaParser::DecompressBone`) -/

/-- The little-endian 16-bit read `read_u16` of `DecompressBone`, over a byte
list. -/
def readU16 (bytes : List ℕ) (off : ℕ) : ℕ :=
  bytes.getD off 0 + bytes.getD (off + 1) 0 * 256

/-- The quaternion part of `DecompressBone`: normalize when the squared
pre-normalization magnitude exceeds `1e-10f`, else the identity fallback. -/
def decompressQuat (qx qy qz qw : ℚ) : Quat :=
  let lenSq := qx * qx + qy * qy + qz * qz + qw * qw
  if lenSq > 1 / 10 ^ 10 then
    let invLen := 1 / ratSqrt lenSq
    ⟨qx * invLen, qy * invLen, qz * invLen, qw * invLen⟩
  else Quat.id

/-- `GlaParser::DecompressBone` over the 14 raw bytes of a compressed bone
record: seven little-endian 16-bit reads, quaternion stored scalar-first
(bytes 0-1 hold `w`), then the three translation components. -/
def decompressBone (bytes : List ℕ) : Vec3 × Quat :=
  let qwRaw := readU16 bytes 0
  let qxRaw := readU16 bytes 2
  let qyRaw := readU16 bytes 4
  let qzRaw := readU16 bytes 6
  let rot := decompressQuat ((qxRaw : ℚ) / 16383 - 2) ((qyRaw : ℚ) / 16383 - 2)
    ((qzRaw : ℚ) / 16383 - 2) ((qwRaw : ℚ) / 16383 - 2)
  let txRaw := readU16 bytes 8
  let tyRaw := readU16 bytes 10
  let tzRaw := readU16 bytes 12
  (⟨(txRaw : ℚ) / 64 - 512, (tyRaw : ℚ) / 64 - 512, (tzRaw : ℚ) / 64 - 512⟩, rot)

/-- Pack seven 16-bit raw values into the 14-byte little-endian record
layout used by the GLA compressed pool (quaternion scalar-first, as in the
packing of `test_bone_decompression`). -/
def mkCompressedRecord (w x y z tx ty tz : ℕ) : List ℕ :=
  [w % 256, w / 256, x % 256, x / 256, y % 256, y / 256, z % 256, z / 256,
   tx % 256, tx / 256, ty % 256, ty / 256, tz % 256, tz / 256]

theorem ratSqrt_one : ratSqrt 1 = 1 := by
  have h := ratSqrt_sq 1 (by norm_num)
  simpa using h

theorem ratSqrt_four : ratSqrt 4 = 2 := by
  have h := ratSqrt_sq 2 (by norm_num)
  norm_num at h
  exact h

/-- Reading back the two bytes of a packed 16-bit value restores it. -/
theorem readU16_mk (v : ℕ) : v % 256 + v / 256 * 256 = v := by
  omega

/-- C3: `DecompressBone` reads a 14-byte record as seven little-endian
16-bit values, quaternion scalar-first (`w` in bytes 0-1) followed by the
translation; each quaternion component is `raw/16383 - 2` before
renormalization, each translation component is `raw/64 - 512`; the
quaternion is renormalized to unit length whenever its pre-normalization
squared magnitude exceeds the `1e-10` guard and the square root is exact,
with the identity fallback otherwise; and the synthetic record with raw
shorts `w = 49149`, `x = y = z = 32766`, translations `32768` decompresses
to quaternion `(0, 0, 0, 1)` and translation `(0, 0, 0)`. -/
theorem C3_decompressBone_format :
    (∀ w x y z tx ty tz : ℕ, w < 65536 → x < 65536 → y < 65536 → z < 65536 →
        tx < 65536 → ty < 65536 → tz < 65536 →
      decompressBone (mkCompressedRecord w x y z tx ty tz) =
        (⟨(tx : ℚ) / 64 - 512, (ty : ℚ) / 64 - 512, (tz : ℚ) / 64 - 512⟩,
         decompressQuat ((x : ℚ) / 16383 - 2) ((y : ℚ) / 16383 - 2)
           ((z : ℚ) / 16383 - 2) ((w : ℚ) / 16383 - 2))) ∧
    (∀ qx qy qz qw : ℚ, ¬(qx * qx + qy * qy + qz * qz + qw * qw > 1 / 10 ^ 10) →
      decompressQuat qx qy qz qw = Quat.id) ∧
    (∀ qx qy qz qw r : ℚ, 0 ≤ r → r * r = qx * qx + qy * qy + qz * qz + qw * qw →
      qx * qx + qy * qy + qz * qz + qw * qw > 1 / 10 ^ 10 →
      quatNormSq (decompressQuat qx qy qz qw) = 1) ∧
    decompressBone (mkCompressedRecord 49149 32766 32766 32766 32768 32768 32768) =
      (⟨0, 0, 0⟩, ⟨0, 0, 0, 1⟩) := by
  refine ⟨?_, ?_, ?_, ?_⟩
  · intro w x y z tx ty tz _ _ _ _ _ _ _
    simp only [decompressBone, mkCompressedRecord, readU16, List.getD]
    norm_num [readU16_mk]
  · intro qx qy qz qw h
    simp only [decompressQuat]
    rw [if_neg h]
  · intro qx qy qz qw r hr hsq hgt
    have hpos : 0 < qx * qx + qy * qy + qz * qz + qw * qw := by
      have : (0 : ℚ) < 1 / 10 ^ 10 := by norm_num
      linarith
    have hrne : r ≠ 0 := by
      intro h0
      rw [h0] at hsq
      simp at hsq
      linarith
    have hroot : ratSqrt (qx * qx + qy * qy + qz * qz + qw * qw) = r := by
      rw [← hsq]; exact ratSqrt_sq r hr
    simp only [decompressQuat, if_pos hgt, quatNormSq, hroot]
    field_simp
    linarith [hsq]
  · norm_num [decompressBone, mkCompressedRecord, readU16, decompressQuat,
      ratSqrt_one, Quat.id, List.getD]

/-- C3 witness: the hypotheses of `C3_decompressBone_format` are satisfied
at the synthetic identity record and at the unit quaternion. -/
theorem C3_decompressBone_format_witness :
    decompressBone (mkCompressedRecord 49149 32766 32766 32766 32768 32768 32768) =
      (⟨0, 0, 0⟩, ⟨0, 0, 0, 1⟩) ∧
    quatNormSq (decompressQuat 0 0 0 1) = 1 :=
  ⟨C3_decompressBone_format.2.2.2,
   C3_decompressBone_format.2.2.1 0 0 0 1 1 (by norm_num) (by norm_num) (by norm_num)⟩

/-! ## 3x4 matrices (`GlaMatrix34` and the `float[3][4]` helpers) -/

/-- Row-major 3x4 matrix over `ℚ` (models `gla::GlaMatrix34` and the raw
`float[3][4]` buffers); `mIJ` is row `I`, column `J`. -/
structure Mat34 where
  m00 : ℚ
  m01 : ℚ
  m02 : ℚ
  m03 : ℚ
  m10 : ℚ
  m11 : ℚ
  m12 : ℚ
  m13 : ℚ
  m20 : ℚ
  m21 : ℚ
  m22 : ℚ
  m23 : ℚ
deriving DecidableEq

/-- `SetIdentityMatrix34`. -/
def identity34 : Mat34 := ⟨1, 0, 0, 0, 0, 1, 0, 0, 0, 0, 1, 0⟩

/-- `BuildMatrix34` (gla_parser.cc): quaternion to rotation matrix plus a
translation column. -/
def buildMatrix34 (q : Quat) (t : Vec3) : Mat34 :=
  let fTx := 2 * q.x
  let fTy := 2 * q.y
  let fTz := 2 * q.z
  let fTwx := fTx * q.w
  let fTwy := fTy * q.w
  let fTwz := fTz * q.w
  let fTxx := fTx * q.x
  let fTxy := fTy * q.x
  let fTxz := fTz * q.x
  let fTyy := fTy * q.y
  let fTyz := fTz * q.y
  let fTzz := fTz * q.z
  ⟨1 - (fTyy + fTzz), fTxy - fTwz, fTxz + fTwy, t.x,
   fTxy + fTwz, 1 - (fTxx + fTzz), fTyz - fTwx, t.y,
   fTxz - fTwy, fTyz + fTwx, 1 - (fTxx + fTyy), t.z⟩

/-- `MultiplyMatrix34` / `GlaParser::MultiplyMatrices`: product of two 3x4
matrices with the implicit `[0 0 0 1]` bottom row. -/
def multiplyMatrix34 (a b : Mat34) : Mat34 :=
  ⟨a.m00 * b.m00 + a.m01 * b.m10 + a.m02 * b.m20,
   a.m00 * b.m01 + a.m01 * b.m11 + a.m02 * b.m21,
   a.m00 * b.m02 + a.m01 * b.m12 + a.m02 * b.m22,
   a.m00 * b.m03 + a.m01 * b.m13 + a.m02 * b.m23 + a.m03,
   a.m10 * b.m00 + a.m11 * b.m10 + a.m12 * b.m20,
   a.m10 * b.m01 + a.m11 * b.m11 + a.m12 * b.m21,
   a.m10 * b.m02 + a.m11 * b.m12 + a.m12 * b.m22,
   a.m10 * b.m03 + a.m11 * b.m13 + a.m12 * b.m23 + a.m13,
   a.m20 * b.m00 + a.m21 * b.m10 + a.m22 * b.m20,
   a.m20 * b.m01 + a.m21 * b.m11 + a.m22 * b.m21,
   a.m20 * b.m02 + a.m21 * b.m12 + a.m22 * b.m22,
   a.m20 * b.m03 + a.m21 * b.m13 + a.m22 * b.m23 + a.m23⟩

/-- `GlaParser::DecomposeMatrix34` (the `float[3][4]` variant used on
animated world matrices): translation from the last column, per-column scale
magnitudes with a `1e-6f` degeneracy guard, trace-based branch selection for
the quaternion, and a final `QuaternionNormalize`. Returns
`(translation, rotation, scale)`. -/
def decomposeMatrix34 (m : Mat34) : Vec3 × Quat × Vec3 :=
  let t : Vec3 := ⟨m.m03, m.m13, m.m23⟩
  let sx := ratSqrt (m.m00 * m.m00 + m.m10 * m.m10 + m.m20 * m.m20)
  let sy := ratSqrt (m.m01 * m.m01 + m.m11 * m.m11 + m.m21 * m.m21)
  let sz := ratSqrt (m.m02 * m.m02 + m.m12 * m.m12 + m.m22 * m.m22)
  let r00 := if sx > 1 / 10 ^ 6 then m.m00 / sx else 1
  let r10 := if sx > 1 / 10 ^ 6 then m.m10 / sx else 0
  let r20 := if sx > 1 / 10 ^ 6 then m.m20 / sx else 0
  let r01 := if sy > 1 / 10 ^ 6 then m.m01 / sy else 0
  let r11 := if sy > 1 / 10 ^ 6 then m.m11 / sy else 1
  let r21 := if sy > 1 / 10 ^ 6 then m.m21 / sy else 0
  let r02 := if sz > 1 / 10 ^ 6 then m.m02 / sz else 0
  let r12 := if sz > 1 / 10 ^ 6 then m.m12 / sz else 0
  let r22 := if sz > 1 / 10 ^ 6 then m.m22 / sz else 1
  let trace := r00 + r11 + r22
  let q : Quat :=
    if trace > 0 then
      let s := (1 / 2) / ratSqrt (trace + 1)
      ⟨(r21 - r12) * s, (r02 - r20) * s, (r10 - r01) * s, (1 / 4) / s⟩
    else if r00 > r11 ∧ r00 > r22 then
      let s := 2 * ratSqrt (1 + r00 - r11 - r22)
      ⟨(1 / 4) * s, (r01 + r10) / s, (r02 + r20) / s, (r21 - r12) / s⟩
    else if r11 > r22 then
      let s := 2 * ratSqrt (1 + r11 - r00 - r22)
      ⟨(r01 + r10) / s, (1 / 4) * s, (r12 + r21) / s, (r02 - r20) / s⟩
    else
      let s := 2 * ratSqrt (1 + r22 - r00 - r11)
      ⟨(r02 + r20) / s, (r12 + r21) / s, (1 / 4) * s, (r10 - r01) / s⟩
  (t, quatNormalize q, ⟨sx, sy, sz⟩)

/-! ## GLA parser state and accessors (`gla_parser.cc`, `gla_format.h`) -/

/-- `gla::GlaBone` (parsed bone record). -/
structure GlaBone where
  name : String
  flags : ℕ
  parent : ℤ
  basePose : Mat34
  basePoseInv : Mat34
  numChildren : ℤ
deriving DecidableEq

def defaultBone : GlaBone := ⟨"", 0, -1, identity34, identity34, 0⟩

/-- The loaded state of a `GlaParser` after a successful `Load`: the header
counts, the parsed bone table, and the two raw byte regions the accessors
read (`m_frame_data` of size `num_frames * num_bones * 3` and
`m_bone_pool` of size `m_bone_pool_size`, both carried here as byte
lists). -/
structure GlaData where
  numFrames : ℤ
  numBones : ℤ
  bones : List GlaBone
  frameData : List ℕ
  bonePool : List ℕ
deriving DecidableEq

/-- `m_frame_data_size = num_frames * (num_bones * 3)` as computed by
`LoadFrameIndices`. -/
def frameDataSize (g : GlaData) : ℕ := (g.numFrames * g.numBones * 3).toNat

/-- `GlaParser::ReadFrameIndex`: bounds-checked 3-byte little-endian read at
`frame * numBones * 3 + bone * 3`, returning 0 on any bounds failure. -/
def readFrameIndex (g : GlaData) (frame bone : ℤ) : ℕ :=
  if frame < 0 ∨ g.numFrames ≤ frame ∨ bone < 0 ∨ g.numBones ≤ bone then 0
  else
    let off := (frame * g.numBones * 3 + bone * 3).toNat
    if off + 3 > frameDataSize g then 0
    else g.frameData.getD off 0 + g.frameData.getD (off + 1) 0 * 256 +
      g.frameData.getD (off + 2) 0 * 65536

/-- `GlaParser::GetBoneTransform`: `none` models the `false` return (out of
declared bounds, or the 14-byte pool entry would extend past the pool);
otherwise the decompressed pool entry at `poolIndex * 14`. -/
def getBoneTransform (g : GlaData) (frame bone : ℤ) : Option (Vec3 × Quat) :=
  if frame < 0 ∨ g.numFrames ≤ frame ∨ bone < 0 ∨ g.numBones ≤ bone then none
  else
    let poolIndex := readFrameIndex g frame bone
    let poolOffset := poolIndex * 14
    if poolOffset + 14 > g.bonePool.length then none
    else some (decompressBone ((g.bonePool.drop poolOffset).take 14))

/-- `GlaParser::ComputeBoneMatrix`, recursion on the parent chain. The C++
recurses on `bone.parent` with no cycle guard; the `fuel` argument makes the
recursion total — with `fuel = bones.length` it reproduces the C++ result on
every acyclic parent chain (the only inputs the original terminates on).
The C++ also ignores `GetBoneTransform`'s failure flag, leaving the outputs
uninitialized on failure; that don't-care case is modelled by
zero/identity, and every theorem below evaluates the importer only where
the lookup succeeds. -/
def computeBoneMatrix (g : GlaData) (frame : ℤ) : ℕ → ℕ → Mat34
  | 0, _ => identity34
  | fuel + 1, bone =>
    let bd := g.bones.getD bone defaultBone
    let animTR := (getBoneTransform g frame (bone : ℤ)).getD (Vec3.zero, Quat.id)
    let localAnim := buildMatrix34 animTR.2 animTR.1
    if bd.parent < 0 then localAnim
    else multiplyMatrix34 (computeBoneMatrix g frame fuel bd.parent.toNat) localAnim

/-- `GlaParser::ComputeAnimatedWorldTransform`:
`world = boneMatrix * basePose`, translation from the last column, rotation
by `DecomposeMatrix34`. -/
def computeAnimatedWorldTransform (g : GlaData) (frame : ℤ) (bone : ℕ) : Vec3 × Quat :=
  let boneMatrix := computeBoneMatrix g frame g.bones.length bone
  let world := multiplyMatrix34 boneMatrix (g.bones.getD bone defaultBone).basePose
  let pos : Vec3 := ⟨world.m03, world.m13, world.m23⟩
  (pos, (decomposeMatrix34 world).2.1)

/-! ## External `ozz` data consumed/produced by the tools -/

/-- A translation/rotation/scale triple (models `ozz` affine transforms and
`retarget::BoneTransform`). -/
structure Transform where
  translation : Vec3
  rotation : Quat
  scale : Vec3
deriving DecidableEq

def Transform.id : Transform := ⟨Vec3.zero, Quat.id, Vec3.one⟩

/-- The parts of a runtime `ozz::animation::Skeleton` the tools read: joint
names, parent indices (`-1` for roots), and per-joint rest-pose local
transforms. -/
structure OzzSkeleton where
  jointNames : List String
  jointParents : List ℤ
  jointRestPoses : List Transform
deriving DecidableEq

def OzzSkeleton.numJoints (s : OzzSkeleton) : ℕ := s.jointNames.length

/-- `gla::AnimationClip` (one `animation.cfg` line). -/
structure AnimationClip where
  name : String
  startFrame : ℤ
  frameCount : ℤ
  loopFrame : ℤ
  fps : ℚ
deriving DecidableEq

structure TranslationKey where
  time : ℚ
  value : Vec3
deriving DecidableEq

structure RotationKey where
  time : ℚ
  value : Quat
deriving DecidableEq

structure ScaleKey where
  time : ℚ
  value : Vec3
deriving DecidableEq

/-- One joint's track of a `RawAnimation`. -/
structure JointTrack where
  translations : List TranslationKey
  rotations : List RotationKey
  scales : List ScaleKey
deriving DecidableEq

/-- `ozz::animation::offline::RawAnimation` (name, duration, per-joint
tracks). -/
structure RawAnimation where
  name : String
  duration : ℚ
  tracks : List JointTrack
deriving DecidableEq

/-! ## `std::map` operations used by the importer and the bone mapper -/

/-- `std::map` assignment `m[k] = v` as an association-list update. -/
def mapAssign {α : Type} [DecidableEq α] {β : Type} :
    List (α × β) → α → β → List (α × β)
  | [], k, v => [(k, v)]
  | (k', v') :: rest, k, v =>
    if k' = k then (k, v) :: rest else (k', v') :: mapAssign rest k v

/-- `std::map::find` as an association-list lookup. -/
def mapFind {α : Type} [DecidableEq α] {β : Type} : List (α × β) → α → Option β
  | [], _ => none
  | (k', v') :: rest, k => if k' = k then some v' else mapFind rest k

/-! ## Clip importer (`GlaImporter::Import(animation)`).

Embedded from the snapshot of `gla2ozz.cc` that contains the "Phase 1.5"
root-motion extraction (the copy appended in
`src/shaders/skinned_fragment.glsl`); apart from that phase and debug
prints it is identical to `src/tools/gla2ozz/gla2ozz.cc`. -/

/-- The `joint_map` of `Import`: skeleton joint name → joint index, built by
`std::map` assignment in index order. -/
def jointMapOf (skel : OzzSkeleton) : List (String × ℕ) :=
  (List.range skel.numJoints).foldl
    (fun m i => mapAssign m (skel.jointNames.getD i "") i) []

/-- The reverse `ozz_to_gla` map of `Import`: ozz joint index → GLA bone
index, built by scanning the bone table in order. -/
def ozzToGla (g : GlaData) (skel : OzzSkeleton) : List (ℕ × ℕ) :=
  (List.range g.bones.length).foldl
    (fun m b =>
      match mapFind (jointMapOf skel) (g.bones.getD b defaultBone).name with
      | some j => mapAssign m j b
      | none => m) []

def ozzToGlaFind (g : GlaData) (skel : OzzSkeleton) (j : ℕ) : Option ℕ :=
  mapFind (ozzToGla g skel) j

/-- The fps resolution of `Import`: the clip's fps when positive, else the
caller-supplied sampling rate, with `20.0f` (the JKA default) replacing a
non-positive result. -/
def resolveFps (clipFps samplingRate : ℚ) : ℚ :=
  let fps := if clipFps > 0 then clipFps else samplingRate
  if fps ≤ 0 then 20 else fps

def frameDurationOf (clip : AnimationClip) (samplingRate : ℚ) : ℚ :=
  1 / resolveFps clip.fps samplingRate

/-- `_animation->duration`: `(frameCount - 1) * frameDuration` for
multi-frame clips, one `frameDuration` for single-frame clips. -/
def durationOf (clip : AnimationClip) (samplingRate : ℚ) : ℚ :=
  if clip.frameCount > 1 then
    ((clip.frameCount - 1 : ℤ) : ℚ) * frameDurationOf clip samplingRate
  else frameDurationOf clip samplingRate

def frameCountN (clip : AnimationClip) : ℕ := clip.frameCount.toNat

/-- Phase 1 of the frame loop: the converted world transform
`world_pos_ozz[j], world_rot_ozz[j]` of ozz joint `j` at clip frame `f`
(identity for joints with no same-named GLA bone). -/
def worldOzz (g : GlaData) (skel : OzzSkeleton) (clip : AnimationClip)
    (f j : ℕ) : Vec3 × Quat :=
  match ozzToGlaFind g skel j with
  | none => (Vec3.zero, Quat.id)
  | some glaBone =>
    let w := computeAnimatedWorldTransform g (clip.startFrame + (f : ℤ)) glaBone
    (convertPositionV w.1, quatNormalize (convertQuaternionQ w.2))

/-- Phase 1.5 (root-motion extraction): the saved `root_offset`, the
converted world position of joint 0. -/
def rootOffset (g : GlaData) (skel : OzzSkeleton) (clip : AnimationClip)
    (f : ℕ) : Vec3 :=
  (worldOzz g skel clip f 0).1

/-- The world transform after Phase 1.5 recentred every position by
`root_offset`. -/
def recenteredWorld (g : GlaData) (skel : OzzSkeleton) (clip : AnimationClip)
    (f j : ℕ) : Vec3 × Quat :=
  let w := worldOzz g skel clip f j
  (Vec3.sub w.1 (rootOffset g skel clip f), w.2)

/-- Phase 2: the parent-local transform emitted for joint `j` at frame `f`
(`local = world` for roots; otherwise the inline parent-inverse quaternion
arithmetic of the source, whose component formulas coincide with
`quatMultiply` / `rotateVectorByQuaternion`). -/
def localTransform (g : GlaData) (skel : OzzSkeleton) (clip : AnimationClip)
    (f j : ℕ) : Vec3 × Quat :=
  let w := recenteredWorld g skel clip f j
  let parent := skel.jointParents.getD j (-1)
  if parent < 0 then w
  else
    let p := recenteredWorld g skel clip f parent.toNat
    let parentRotInv := quatConjugate p.2
    let rot := quatNormalize (quatMultiply parentRotInv w.2)
    let trans := rotateVectorByQuaternion parentRotInv (Vec3.sub w.1 p.1)
    (trans, rot)

/-- `animated[j]` after the frame loop: set for every joint on every
iteration, hence true exactly when the clip has at least one frame. -/
def animatedFlag (clip : AnimationClip) : Bool := decide (0 < clip.frameCount)

/-- The translation keys pushed by the frame loop for joint `j`: the C++
iterates frames outermost and joints innermost, appending one key per frame
to the end of each track, so each track receives exactly these keys in this
order (one per frame, at time `f * frameDuration`). -/
def emittedTranslations (g : GlaData) (skel : OzzSkeleton) (clip : AnimationClip)
    (sr : ℚ) (j : ℕ) : List TranslationKey :=
  (List.range (frameCountN clip)).map (fun (f : ℕ) =>
    ⟨(f : ℚ) * frameDurationOf clip sr, (localTransform g skel clip f j).1⟩)

def emittedRotations (g : GlaData) (skel : OzzSkeleton) (clip : AnimationClip)
    (sr : ℚ) (j : ℕ) : List RotationKey :=
  (List.range (frameCountN clip)).map (fun (f : ℕ) =>
    ⟨(f : ℚ) * frameDurationOf clip sr, (localTransform g skel clip f j).2⟩)

def emittedScales (clip : AnimationClip) (sr : ℚ) : List ScaleKey :=
  (List.range (frameCountN clip)).map (fun (f : ℕ) =>
    ⟨(f : ℚ) * frameDurationOf clip sr, Vec3.one⟩)

/-- The track post-processing of `Import` (translations): reset unanimated
or empty tracks to a single identity key at time 0, then duplicate a single
key at `time = duration` when the duration is positive. -/
def postTranslations (duration : ℚ) (animated : Bool)
    (ts : List TranslationKey) : List TranslationKey :=
  let ts1 := if animated = false ∨ ts.isEmpty then [⟨0, Vec3.zero⟩] else ts
  if ts1.length = 1 ∧ duration > 0 then
    ts1 ++ [⟨duration, (ts1.headD ⟨0, Vec3.zero⟩).value⟩]
  else ts1

def postRotations (duration : ℚ) (animated : Bool)
    (rs : List RotationKey) : List RotationKey :=
  let rs1 := if animated = false ∨ rs.isEmpty then [⟨0, Quat.id⟩] else rs
  if rs1.length = 1 ∧ duration > 0 then
    rs1 ++ [⟨duration, (rs1.headD ⟨0, Quat.id⟩).value⟩]
  else rs1

def postScales (duration : ℚ) (animated : Bool)
    (ss : List ScaleKey) : List ScaleKey :=
  let ss1 := if animated = false ∨ ss.isEmpty then [⟨0, Vec3.one⟩] else ss
  if ss1.length = 1 ∧ duration > 0 then
    ss1 ++ [⟨duration, (ss1.headD ⟨0, Vec3.one⟩).value⟩]
  else ss1

/-- The finished track of joint `j`. -/
def trackOf (g : GlaData) (skel : OzzSkeleton) (clip : AnimationClip)
    (sr : ℚ) (j : ℕ) : JointTrack :=
  ⟨postTranslations (durationOf clip sr) (animatedFlag clip)
     (emittedTranslations g skel clip sr j),
   postRotations (durationOf clip sr) (animatedFlag clip)
     (emittedRotations g skel clip sr j),
   postScales (durationOf clip sr) (animatedFlag clip)
     (emittedScales clip sr)⟩

/-- `GlaImporter::Import(animation)` for an already-located clip: `none`
models the `false` return when the clip's frame range exceeds the GLA file;
otherwise the constructed `RawAnimation`. -/
def importAnimation (g : GlaData) (skel : OzzSkeleton) (clip : AnimationClip)
    (sr : ℚ) : Option RawAnimation :=
  if clip.startFrame + clip.frameCount > g.numFrames then none
  else some ⟨clip.name, durationOf clip sr,
    (List.range skel.numJoints).map (fun j => trackOf g skel clip sr j)⟩

def emptyTrack : JointTrack := ⟨[], [], []⟩

/-- The resolved fps is always positive. -/
theorem resolveFps_pos (a b : ℚ) : 0 < resolveFps a b := by
  unfold resolveFps
  dsimp only
  split_ifs <;> linarith

theorem frameDurationOf_pos (clip : AnimationClip) (sr : ℚ) :
    0 < frameDurationOf clip sr := by
  unfold frameDurationOf
  exact div_pos one_pos (resolveFps_pos clip.fps sr)

/-- The constructed duration is always positive. -/
theorem durationOf_pos (clip : AnimationClip) (sr : ℚ) :
    0 < durationOf clip sr := by
  unfold durationOf
  split_ifs with h
  · have h0 : (1 : ℤ) ≤ clip.frameCount - 1 := by omega
    have h1 : (1 : ℚ) ≤ ((clip.frameCount - 1 : ℤ) : ℚ) := by
      exact_mod_cast h0
    nlinarith [frameDurationOf_pos clip sr]
  · exact frameDurationOf_pos clip sr

theorem importAnimation_eq_some (g : GlaData) (skel : OzzSkeleton)
    (clip : AnimationClip) (sr : ℚ)
    (h : ¬clip.startFrame + clip.frameCount > g.numFrames) :
    importAnimation g skel clip sr =
      some ⟨clip.name, durationOf clip sr,
        (List.range skel.numJoints).map (fun j => trackOf g skel clip sr j)⟩ := by
  unfold importAnimation
  rw [if_neg h]

/-- A successfully imported animation's duration field. -/
theorem importAnimation_duration (g : GlaData) (skel : OzzSkeleton)
    (clip : AnimationClip) (sr : ℚ) (a : RawAnimation)
    (h : importAnimation g skel clip sr = some a) :
    a.duration = durationOf clip sr := by
  unfold importAnimation at h
  split at h
  · exact absurd h (by simp)
  · cases h
    rfl

/-- A successfully imported animation's track list. -/
theorem importAnimation_tracks (g : GlaData) (skel : OzzSkeleton)
    (clip : AnimationClip) (sr : ℚ) (a : RawAnimation)
    (h : importAnimation g skel clip sr = some a) :
    a.tracks = (List.range skel.numJoints).map (fun j => trackOf g skel clip sr j) := by
  unfold importAnimation at h
  split at h
  · exact absurd h (by simp)
  · cases h
    rfl

/-! ## Concrete data used by witnesses and counterexamples -/

/-- Minimal loaded GLA: empty bone table, one declared frame. -/
def gW : GlaData := ⟨1, 0, [], [], []⟩

def skelW : OzzSkeleton := ⟨[], [], []⟩

def clipW : AnimationClip := ⟨"wclip", 0, 1, -1, 20⟩

def animW : RawAnimation :=
  ⟨clipW.name, durationOf clipW 30,
   (List.range skelW.numJoints).map (fun j => trackOf gW skelW clipW 30 j)⟩

/-- A loaded GLA with one root bone whose bind pose is the identity rotation
translated to `(10, 0, 0)`, one frame whose single frame-index entry is `0`,
and one pool record holding the identity quaternion and translation
`(1, 0, 0)` (raw shorts `w = 49149`, `x = y = z = 32766`,
`t = (32832, 32768, 32768)`). -/
def gC1 : GlaData :=
  ⟨1, 1,
   [⟨"model_root", 0, -1, ⟨1, 0, 0, 10, 0, 1, 0, 0, 0, 0, 1, 0⟩, identity34, 0⟩],
   [0, 0, 0],
   mkCompressedRecord 49149 32766 32766 32766 32832 32768 32768⟩

def skelC1 : OzzSkeleton :=
  ⟨["model_root"], [-1], [⟨⟨10 * SCALE_FACTOR, 0, 0⟩, Quat.id, Vec3.one⟩]⟩

def clipC1 : AnimationClip := ⟨"clip1", 0, 1, -1, 20⟩

def animC1 : RawAnimation :=
  ⟨clipC1.name, durationOf clipC1 30,
   (List.range skelC1.numJoints).map (fun j => trackOf gC1 skelC1 clipC1 30 j)⟩

/-- Target skeleton with a single root joint `extra` that has no same-named
GLA bone and whose rest pose translation is `(5, 0, 0)`. -/
def skelC2 : OzzSkeleton :=
  ⟨["extra"], [-1], [⟨⟨5, 0, 0⟩, Quat.id, Vec3.one⟩]⟩

def clipC2 : AnimationClip := ⟨"clip2", 0, 1, -1, 20⟩

def animC2 : RawAnimation :=
  ⟨clipC2.name, durationOf clipC2 30,
   (List.range skelC2.numJoints).map (fun j => trackOf gW skelC2 clipC2 30 j)⟩

/-! ## C7 -/

/-- C7: the importer resolves the fps as the clip's declared fps if
positive, else the caller-supplied sampling rate, else the fixed default
`20`; the animation's duration is `(frameCount − 1) · (1/fps)`, except a
clip with `frameCount = 1` receives duration `1/fps` rather than zero. -/
theorem C7_fps_and_duration (g : GlaData) (skel : OzzSkeleton)
    (clip : AnimationClip) (sr : ℚ) (a : RawAnimation)
    (himp : importAnimation g skel clip sr = some a)
    (hfc : 1 ≤ clip.frameCount) :
    resolveFps clip.fps sr =
      (if 0 < clip.fps then clip.fps else if 0 < sr then sr else 20) ∧
    frameDurationOf clip sr = 1 / resolveFps clip.fps sr ∧
    a.duration = (if clip.frameCount = 1 then frameDurationOf clip sr
      else ((clip.frameCount : ℚ) - 1) * frameDurationOf clip sr) := by
  refine ⟨?_, rfl, ?_⟩
  · unfold resolveFps
    dsimp only
    split_ifs <;> first | rfl | linarith
  · rw [importAnimation_duration g skel clip sr a himp]
    unfold durationOf
    rcases eq_or_lt_of_le hfc with h1 | h1
    · rw [if_neg (by omega), if_pos (by omega)]
    · rw [if_pos h1, if_neg (by omega)]
      congr 1
      push_cast
      ring

theorem C7_fps_and_duration_witness :
    resolveFps clipW.fps 30 =
      (if 0 < clipW.fps then clipW.fps else if 0 < (30 : ℚ) then 30 else 20) ∧
    frameDurationOf clipW 30 = 1 / resolveFps clipW.fps 30 ∧
    animW.duration = (if clipW.frameCount = 1 then frameDurationOf clipW 30
      else ((clipW.frameCount : ℚ) - 1) * frameDurationOf clipW 30) :=
  C7_fps_and_duration gW skelW clipW 30 animW
    (importAnimation_eq_some gW skelW clipW 30 (by decide)) (by decide)

/-! ## Track post-processing lemmas -/

theorem length_emittedTranslations (g : GlaData) (skel : OzzSkeleton)
    (clip : AnimationClip) (sr : ℚ) (j : ℕ) :
    (emittedTranslations g skel clip sr j).length = frameCountN clip := by
  unfold emittedTranslations
  rw [List.length_map, List.length_range]

theorem length_emittedRotations (g : GlaData) (skel : OzzSkeleton)
    (clip : AnimationClip) (sr : ℚ) (j : ℕ) :
    (emittedRotations g skel clip sr j).length = frameCountN clip := by
  unfold emittedRotations
  rw [List.length_map, List.length_range]

theorem length_emittedScales (clip : AnimationClip) (sr : ℚ) :
    (emittedScales clip sr).length = frameCountN clip := by
  unfold emittedScales
  rw [List.length_map, List.length_range]

theorem getLast_emittedTranslations (g : GlaData) (skel : OzzSkeleton)
    (clip : AnimationClip) (sr : ℚ) (j n : ℕ) (hn : frameCountN clip = n + 1) :
    (emittedTranslations g skel clip sr j).getLast? =
      some ⟨(n : ℚ) * frameDurationOf clip sr, (localTransform g skel clip n j).1⟩ := by
  unfold emittedTranslations
  rw [hn, List.range_succ, List.map_append, List.map_singleton,
    List.getLast?_concat]

theorem getLast_emittedRotations (g : GlaData) (skel : OzzSkeleton)
    (clip : AnimationClip) (sr : ℚ) (j n : ℕ) (hn : frameCountN clip = n + 1) :
    (emittedRotations g skel clip sr j).getLast? =
      some ⟨(n : ℚ) * frameDurationOf clip sr, (localTransform g skel clip n j).2⟩ := by
  unfold emittedRotations
  rw [hn, List.range_succ, List.map_append, List.map_singleton,
    List.getLast?_concat]

theorem getLast_emittedScales (clip : AnimationClip) (sr : ℚ) (n : ℕ)
    (hn : frameCountN clip = n + 1) :
    (emittedScales clip sr).getLast? =
      some ⟨(n : ℚ) * frameDurationOf clip sr, Vec3.one⟩ := by
  unfold emittedScales
  rw [hn, List.range_succ, List.map_append, List.map_singleton,
    List.getLast?_concat]

theorem postTranslations_two (d : ℚ) (ts : List TranslationKey)
    (h2 : 2 ≤ ts.length) : postTranslations d true ts = ts := by
  unfold postTranslations
  have hne : ts.isEmpty = false := by
    cases ts with
    | nil => simp at h2
    | cons a l => rfl
  rw [if_neg (show ¬(true = false ∨ ts.isEmpty = true) by simp [hne])]
  dsimp only
  rw [if_neg (show ¬(ts.length = 1 ∧ d > 0) by rw [not_and_or]; left; omega)]

theorem postRotations_two (d : ℚ) (rs : List RotationKey)
    (h2 : 2 ≤ rs.length) : postRotations d true rs = rs := by
  unfold postRotations
  have hne : rs.isEmpty = false := by
    cases rs with
    | nil => simp at h2
    | cons a l => rfl
  rw [if_neg (show ¬(true = false ∨ rs.isEmpty = true) by simp [hne])]
  dsimp only
  rw [if_neg (show ¬(rs.length = 1 ∧ d > 0) by rw [not_and_or]; left; omega)]

theorem postScales_two (d : ℚ) (ss : List ScaleKey)
    (h2 : 2 ≤ ss.length) : postScales d true ss = ss := by
  unfold postScales
  have hne : ss.isEmpty = false := by
    cases ss with
    | nil => simp at h2
    | cons a l => rfl
  rw [if_neg (show ¬(true = false ∨ ss.isEmpty = true) by simp [hne])]
  dsimp only
  rw [if_neg (show ¬(ss.length = 1 ∧ d > 0) by rw [not_and_or]; left; omega)]

theorem postTranslations_single (d : ℚ) (hd : 0 < d) (k : TranslationKey) :
    postTranslations d true [k] = [k, ⟨d, k.value⟩] := by
  unfold postTranslations
  rw [if_neg (show ¬(true = false ∨ [k].isEmpty = true) by simp)]
  dsimp only
  rw [if_pos (show [k].length = 1 ∧ d > 0 from ⟨rfl, hd⟩)]
  rfl

theorem postRotations_single (d : ℚ) (hd : 0 < d) (k : RotationKey) :
    postRotations d true [k] = [k, ⟨d, k.value⟩] := by
  unfold postRotations
  rw [if_neg (show ¬(true = false ∨ [k].isEmpty = true) by simp)]
  dsimp only
  rw [if_pos (show [k].length = 1 ∧ d > 0 from ⟨rfl, hd⟩)]
  rfl

theorem postScales_single (d : ℚ) (hd : 0 < d) (k : ScaleKey) :
    postScales d true [k] = [k, ⟨d, k.value⟩] := by
  unfold postScales
  rw [if_neg (show ¬(true = false ∨ [k].isEmpty = true) by simp)]
  dsimp only
  rw [if_pos (show [k].length = 1 ∧ d > 0 from ⟨rfl, hd⟩)]
  rfl

theorem postTranslations_empty (d : ℚ) (hd : 0 < d) (an : Bool) :
    postTranslations d an [] = [⟨0, Vec3.zero⟩, ⟨d, Vec3.zero⟩] := by
  unfold postTranslations
  simp [hd]

theorem postRotations_empty (d : ℚ) (hd : 0 < d) (an : Bool) :
    postRotations d an [] = [⟨0, Quat.id⟩, ⟨d, Quat.id⟩] := by
  unfold postRotations
  simp [hd]

theorem postScales_empty (d : ℚ) (hd : 0 < d) (an : Bool) :
    postScales d an [] = [⟨0, Vec3.one⟩, ⟨d, Vec3.one⟩] := by
  unfold postScales
  simp [hd]

/-- For a clip with at least two frames the duration is
`(frameCount − 1) * frameDuration`, expressed over `ℕ`. -/
theorem durationOf_of_two_frames (clip : AnimationClip) (sr : ℚ)
    (h2 : 2 ≤ frameCountN clip) :
    durationOf clip sr =
      ((frameCountN clip - 1 : ℕ) : ℚ) * frameDurationOf clip sr := by
  have hfc : (1 : ℤ) < clip.frameCount := by
    unfold frameCountN at h2
    omega
  unfold durationOf
  rw [if_pos hfc]
  congr 1
  have hn : (clip.frameCount - 1 : ℤ) = ((frameCountN clip - 1 : ℕ) : ℤ) := by
    unfold frameCountN
    omega
  rw [hn]
  push_cast
  ring

theorem animatedFlag_true (clip : AnimationClip) (h : 1 ≤ frameCountN clip) :
    animatedFlag clip = true := by
  unfold animatedFlag
  unfold frameCountN at h
  simp only [decide_eq_true_eq]
  omega

/-! ## C6 -/

/-- C6: for every animation produced by the clip importer, every
translation, rotation, and scale track has at least 2 keyframes whenever
the animation's duration is positive, and the last keyframe's time on every
track equals the duration exactly. -/
theorem C6_min_keyframes (g : GlaData) (skel : OzzSkeleton)
    (clip : AnimationClip) (sr : ℚ) (a : RawAnimation)
    (himp : importAnimation g skel clip sr = some a)
    (hdur : 0 < a.duration) :
    ∀ tr ∈ a.tracks,
      (2 ≤ tr.translations.length ∧
        tr.translations.getLast?.map TranslationKey.time = some a.duration) ∧
      (2 ≤ tr.rotations.length ∧
        tr.rotations.getLast?.map RotationKey.time = some a.duration) ∧
      (2 ≤ tr.scales.length ∧
        tr.scales.getLast?.map ScaleKey.time = some a.duration) := by
  intro tr htr
  rw [importAnimation_tracks g skel clip sr a himp] at htr
  obtain ⟨j, hj, rfl⟩ := List.mem_map.mp htr
  rw [importAnimation_duration g skel clip sr a himp] at hdur ⊢
  clear himp hdur htr hj
  unfold trackOf
  rcases hsplit : frameCountN clip with _ | n
  · -- no frames: the backfill branch writes two keys ending at the duration
    have ht : emittedTranslations g skel clip sr j = [] :=
      List.length_eq_zero.mp ((length_emittedTranslations g skel clip sr j).trans hsplit)
    have hr : emittedRotations g skel clip sr j = [] :=
      List.length_eq_zero.mp ((length_emittedRotations g skel clip sr j).trans hsplit)
    have hs : emittedScales clip sr = [] :=
      List.length_eq_zero.mp ((length_emittedScales clip sr).trans hsplit)
    rw [ht, hr, hs, postTranslations_empty _ (durationOf_pos clip sr),
      postRotations_empty _ (durationOf_pos clip sr),
      postScales_empty _ (durationOf_pos clip sr)]
    refine ⟨⟨by simp, ?_⟩, ⟨by simp, ?_⟩, ⟨by simp, ?_⟩⟩ <;> rfl
  rcases n with _ | m
  · -- exactly one frame: the single keyframe is duplicated at the duration
    have han := animatedFlag_true clip (by omega)
    have ht : emittedTranslations g skel clip sr j =
        [⟨(0 : ℚ) * frameDurationOf clip sr, (localTransform g skel clip 0 j).1⟩] := by
      unfold emittedTranslations
      rw [hsplit]
      rfl
    have hr : emittedRotations g skel clip sr j =
        [⟨(0 : ℚ) * frameDurationOf clip sr, (localTransform g skel clip 0 j).2⟩] := by
      unfold emittedRotations
      rw [hsplit]
      rfl
    have hs : emittedScales clip sr =
        [⟨(0 : ℚ) * frameDurationOf clip sr, Vec3.one⟩] := by
      unfold emittedScales
      rw [hsplit]
      rfl
    rw [han, ht, hr, hs, postTranslations_single _ (durationOf_pos clip sr),
      postRotations_single _ (durationOf_pos clip sr),
      postScales_single _ (durationOf_pos clip sr)]
    refine ⟨⟨by simp, ?_⟩, ⟨by simp, ?_⟩, ⟨by simp, ?_⟩⟩ <;> rfl
  · -- at least two frames: one keyframe per frame, last at the duration
    have han := animatedFlag_true clip (by omega)
    have hD := durationOf_of_two_frames clip sr (by omega)
    rw [han, postTranslations_two _ _ (by rw [length_emittedTranslations, hsplit]; omega),
      postRotations_two _ _ (by rw [length_emittedRotations, hsplit]; omega),
      postScales_two _ _ (by rw [length_emittedScales, hsplit]; omega)]
    have hnsub : frameCountN clip - 1 = m + 1 := by omega
    refine ⟨⟨?_, ?_⟩, ⟨?_, ?_⟩, ⟨?_, ?_⟩⟩
    · rw [length_emittedTranslations, hsplit]; omega
    · rw [getLast_emittedTranslations g skel clip sr j (m + 1) hsplit, hD, hnsub]
      rfl
    · rw [length_emittedRotations, hsplit]; omega
    · rw [getLast_emittedRotations g skel clip sr j (m + 1) hsplit, hD, hnsub]
      rfl
    · rw [length_emittedScales, hsplit]; omega
    · rw [getLast_emittedScales clip sr (m + 1) hsplit, hD, hnsub]
      rfl

theorem C6_min_keyframes_witness :
    (2 ≤ (trackOf gC1 skelC1 clipC1 30 0).translations.length ∧
      (trackOf gC1 skelC1 clipC1 30 0).translations.getLast?.map
        TranslationKey.time = some animC1.duration) ∧
    (2 ≤ (trackOf gC1 skelC1 clipC1 30 0).rotations.length ∧
      (trackOf gC1 skelC1 clipC1 30 0).rotations.getLast?.map
        RotationKey.time = some animC1.duration) ∧
    (2 ≤ (trackOf gC1 skelC1 clipC1 30 0).scales.length ∧
      (trackOf gC1 skelC1 clipC1 30 0).scales.getLast?.map
        ScaleKey.time = some animC1.duration) :=
  C6_min_keyframes gC1 skelC1 clipC1 30 animC1
    (importAnimation_eq_some gC1 skelC1 clipC1 30 (by decide))
    (durationOf_pos clipC1 30)
    (trackOf gC1 skelC1 clipC1 30 0) (List.mem_singleton_self _)

theorem Vec3.sub_self (v : Vec3) : Vec3.sub v v = Vec3.zero := by
  simp [Vec3.sub, Vec3.zero]

/-- A successfully imported animation's `j`-th track, for `j` in range. -/
theorem tracks_getD_eq (g : GlaData) (skel : OzzSkeleton) (clip : AnimationClip)
    (sr : ℚ) (a : RawAnimation) (h : importAnimation g skel clip sr = some a)
    (j : ℕ) (hj : j < skel.numJoints) :
    a.tracks.getD j emptyTrack = trackOf g skel clip sr j := by
  rw [importAnimation_tracks g skel clip sr a h, List.getD_eq_getElem?_getD,
    List.getElem?_map]
  simp [List.getElem?_range, hj]

/-- Post-processing preserves an all-zero translation value set (the reset
key and the duplicated end key are both zero as well). -/
theorem postTranslations_all_zero (d : ℚ) (an : Bool) (ts : List TranslationKey)
    (hall : ∀ k ∈ ts, k.value = Vec3.zero) :
    ∀ k ∈ postTranslations d an ts, k.value = Vec3.zero := by
  intro k hk
  unfold postTranslations at hk
  set ts1 := if an = false ∨ ts.isEmpty = true then [⟨0, Vec3.zero⟩] else ts with hts1
  have hts1all : ∀ k ∈ ts1, k.value = Vec3.zero := by
    rw [hts1]
    split_ifs with h
    · intro k hk
      simp at hk
      rw [hk]
    · exact hall
  dsimp only at hk
  split_ifs at hk with h2
  · rcases List.mem_append.mp hk with h | h
    · exact hts1all k h
    · obtain ⟨k0, hk0⟩ := List.length_eq_one.mp h2.1
      simp at h
      rw [h, hk0]
      exact hts1all k0 (by rw [hk0]; exact List.mem_singleton_self k0)
  · exact hts1all k hk

/-! ## C1 -/

/-- C1: Phase 1.5 of the importer subtracts the converted world position of
joint 0 — which is the root joint, by the hypothesis that joint 0 has no
parent (runtime `ozz` skeletons store parents before children, so their
joint 0 is always a root) — from every joint's converted world position for
that frame, before the parent-local conversion of Phase 2 and the keyframe
emission; consequently the root joint's parent-local translation is zero at
every frame, and every translation keyframe emitted on the root joint's
track has value zero. -/
theorem C1_root_motion_extraction (g : GlaData) (skel : OzzSkeleton)
    (clip : AnimationClip) (sr : ℚ)
    (hroot : skel.jointParents.getD 0 (-1) < 0) :
    (∀ f j, (recenteredWorld g skel clip f j).1 =
      Vec3.sub (worldOzz g skel clip f j).1 (worldOzz g skel clip f 0).1) ∧
    (∀ f, (localTransform g skel clip f 0).1 = Vec3.zero) ∧
    (∀ a, importAnimation g skel clip sr = some a →
      (a.tracks.getD 0 emptyTrack).translations.map TranslationKey.value =
        List.replicate (a.tracks.getD 0 emptyTrack).translations.length
          Vec3.zero) := by
  have hlocal : ∀ f, (localTransform g skel clip f 0).1 = Vec3.zero := by
    intro f
    unfold localTransform
    rw [if_pos hroot]
    exact Vec3.sub_self _
  refine ⟨fun f j => rfl, hlocal, ?_⟩
  intro a ha
  have hall : ∀ k ∈ (a.tracks.getD 0 emptyTrack).translations,
      k.value = Vec3.zero := by
    intro k hk
    by_cases h0 : 0 < skel.numJoints
    · rw [tracks_getD_eq g skel clip sr a ha 0 h0] at hk
      refine postTranslations_all_zero _ _ _ ?_ k hk
      intro k' hk'
      unfold emittedTranslations at hk'
      obtain ⟨f, _, rfl⟩ := List.mem_map.mp hk'
      exact hlocal f
    · rw [importAnimation_tracks g skel clip sr a ha] at hk
      have : skel.numJoints = 0 := by omega
      rw [this] at hk
      simp [emptyTrack] at hk
  apply List.eq_replicate_iff.mpr
  refine ⟨by rw [List.length_map], ?_⟩
  intro b hb
  obtain ⟨k, hk, rfl⟩ := List.mem_map.mp hb
  exact hall k hk

theorem C1_root_motion_extraction_witness :
    (localTransform gC1 skelC1 clipC1 0 0).1 = Vec3.zero ∧
    (animC1.tracks.getD 0 emptyTrack).translations.map TranslationKey.value =
      List.replicate (animC1.tracks.getD 0 emptyTrack).translations.length
        Vec3.zero :=
  ⟨(C1_root_motion_extraction gC1 skelC1 clipC1 30 (by decide)).2.1 0,
   (C1_root_motion_extraction gC1 skelC1 clipC1 30 (by decide)).2.2 animC1
     (importAnimation_eq_some gC1 skelC1 clipC1 30 (by decide))⟩

/-! ## C2 -/

/-- The three track lists always hold one key per frame, plus the
post-processing minimum of two. -/
theorem trackOf_lengths (g : GlaData) (skel : OzzSkeleton) (clip : AnimationClip)
    (sr : ℚ) (j : ℕ) :
    (trackOf g skel clip sr j).translations.length = max (frameCountN clip) 2 ∧
    (trackOf g skel clip sr j).rotations.length = max (frameCountN clip) 2 ∧
    (trackOf g skel clip sr j).scales.length = max (frameCountN clip) 2 := by
  unfold trackOf
  rcases hsplit : frameCountN clip with _ | n
  · have ht : emittedTranslations g skel clip sr j = [] :=
      List.length_eq_zero.mp ((length_emittedTranslations g skel clip sr j).trans hsplit)
    have hr : emittedRotations g skel clip sr j = [] :=
      List.length_eq_zero.mp ((length_emittedRotations g skel clip sr j).trans hsplit)
    have hs : emittedScales clip sr = [] :=
      List.length_eq_zero.mp ((length_emittedScales clip sr).trans hsplit)
    rw [ht, hr, hs, postTranslations_empty _ (durationOf_pos clip sr),
      postRotations_empty _ (durationOf_pos clip sr),
      postScales_empty _ (durationOf_pos clip sr)]
    refine ⟨rfl, rfl, rfl⟩
  rcases n with _ | m
  · have han := animatedFlag_true clip (by omega)
    have ht : emittedTranslations g skel clip sr j =
        [⟨(0 : ℚ) * frameDurationOf clip sr, (localTransform g skel clip 0 j).1⟩] := by
      unfold emittedTranslations
      rw [hsplit]
      rfl
    have hr : emittedRotations g skel clip sr j =
        [⟨(0 : ℚ) * frameDurationOf clip sr, (localTransform g skel clip 0 j).2⟩] := by
      unfold emittedRotations
      rw [hsplit]
      rfl
    have hs : emittedScales clip sr =
        [⟨(0 : ℚ) * frameDurationOf clip sr, Vec3.one⟩] := by
      unfold emittedScales
      rw [hsplit]
      rfl
    rw [han, ht, hr, hs, postTranslations_single _ (durationOf_pos clip sr),
      postRotations_single _ (durationOf_pos clip sr),
      postScales_single _ (durationOf_pos clip sr)]
    refine ⟨rfl, rfl, rfl⟩
  · have han := animatedFlag_true clip (by omega)
    rw [han, postTranslations_two _ _ (by rw [length_emittedTranslations, hsplit]; omega),
      postRotations_two _ _ (by rw [length_emittedRotations, hsplit]; omega),
      postScales_two _ _ (by rw [length_emittedScales, hsplit]; omega),
      length_emittedTranslations, length_emittedRotations, length_emittedScales, hsplit]
    omega

/-- C2 counterexample: importing a one-frame clip against a target skeleton
whose only joint `extra` has no same-named GLA bone does not backfill that
joint from its rest pose: the joint is marked animated, and its emitted
translation keyframes carry the identity-world-derived value `(0, 0, 0)`,
not the rest-pose translation `(5, 0, 0)`. -/
theorem C2_counterexample :
    ozzToGlaFind gW skelC2 0 = none ∧
    animatedFlag clipC2 = true ∧
    importAnimation gW skelC2 clipC2 30 = some animC2 ∧
    (animC2.tracks.getD 0 emptyTrack).translations.map TranslationKey.value =
      [Vec3.zero, Vec3.zero] ∧
    (skelC2.jointRestPoses.getD 0 Transform.id).translation = ⟨5, 0, 0⟩ ∧
    (Vec3.zero : Vec3) ≠ ⟨5, 0, 0⟩ := by
  refine ⟨rfl, rfl, importAnimation_eq_some gW skelC2 clipC2 30 (by decide), ?_, rfl, ?_⟩
  · have htr : animC2.tracks.getD 0 emptyTrack = trackOf gW skelC2 clipC2 30 0 :=
      tracks_getD_eq gW skelC2 clipC2 30 animC2
        (importAnimation_eq_some gW skelC2 clipC2 30 (by decide)) 0 (by decide)
    rw [htr]
    have hloc : (localTransform gW skelC2 clipC2 0 0).1 = Vec3.zero := by
      unfold localTransform
      rw [if_pos (by decide : (skelC2.jointParents.getD 0 (-1) : ℤ) < 0)]
      exact Vec3.sub_self _
    have hemit : emittedTranslations gW skelC2 clipC2 30 0 =
        [⟨(0 : ℚ) * frameDurationOf clipC2 30, (localTransform gW skelC2 clipC2 0 0).1⟩] := by
      unfold emittedTranslations
      rfl
    unfold trackOf
    rw [hemit, hloc, (by rfl : animatedFlag clipC2 = true),
      postTranslations_single _ (durationOf_pos clipC2 30)]
    rfl
  · simp only [ne_eq, Vec3.zero, Vec3.mk.injEq, not_and]
    norm_num

/-- C2 amended: a target joint with no same-named source bone is still
marked animated and keyframed once per frame like every other joint; its
world transform is set to the identity (zero position, identity rotation)
each frame before recentring and parent-local conversion, and its tracks
end with one key per frame (minimum two), never the rest-pose backfill —
the backfill branch writes identity values and is unreachable for clips
with at least one frame. -/
theorem C2_unmapped_identity (g : GlaData) (skel : OzzSkeleton)
    (clip : AnimationClip) (sr : ℚ) (j : ℕ)
    (hun : ozzToGlaFind g skel j = none) :
    (∀ f, worldOzz g skel clip f j = (Vec3.zero, Quat.id)) ∧
    (1 ≤ frameCountN clip → animatedFlag clip = true) ∧
    (∀ a, importAnimation g skel clip sr = some a → j < skel.numJoints →
      (a.tracks.getD j emptyTrack).translations.length = max (frameCountN clip) 2 ∧
      (a.tracks.getD j emptyTrack).rotations.length = max (frameCountN clip) 2 ∧
      (a.tracks.getD j emptyTrack).scales.length = max (frameCountN clip) 2) := by
  refine ⟨?_, animatedFlag_true clip, ?_⟩
  · intro f
    unfold worldOzz
    rw [hun]
  · intro a ha hj
    rw [tracks_getD_eq g skel clip sr a ha j hj]
    exact trackOf_lengths g skel clip sr j

theorem C2_unmapped_identity_witness :
    worldOzz gW skelC2 clipC2 0 0 = (Vec3.zero, Quat.id) ∧
    animatedFlag clipC2 = true ∧
    (animC2.tracks.getD 0 emptyTrack).translations.length = max (frameCountN clipC2) 2 :=
  ⟨(C2_unmapped_identity gW skelC2 clipC2 30 0 rfl).1 0,
   (C2_unmapped_identity gW skelC2 clipC2 30 0 rfl).2.1 (by decide),
   ((C2_unmapped_identity gW skelC2 clipC2 30 0 rfl).2.2 animC2
     (importAnimation_eq_some gW skelC2 clipC2 30 (by decide)) (by decide)).1⟩

/-! ## C8 -/

/-- C8: after a successful `Load` (whose invariant fixes the frame-index
table at `numFrames * numBones * 3` bytes), `GetBoneTransform(frame, bone)`
fails (returns `none`) whenever `frame` or `bone` is outside the declared
header bounds, or whenever the 14-byte pool entry at `poolIndex * 14` would
extend past the compressed pool; otherwise it returns the decompressed
transform of the pool entry selected by the 3-byte little-endian
frame-index entry at byte offset `frame * numBones * 3 + bone * 3`, and
both that 3-byte read and the 14-byte pool slice lie fully inside their
buffers, so no read is out of bounds. -/
theorem C8_getBoneTransform_bounds (g : GlaData) (frame bone : ℤ)
    (hsize : g.frameData.length = frameDataSize g) :
    ((frame < 0 ∨ g.numFrames ≤ frame ∨ bone < 0 ∨ g.numBones ≤ bone) →
      getBoneTransform g frame bone = none) ∧
    (0 ≤ frame → frame < g.numFrames → 0 ≤ bone → bone < g.numBones →
      (frame * g.numBones * 3 + bone * 3).toNat + 3 ≤ g.frameData.length ∧
      readFrameIndex g frame bone =
        g.frameData.getD (frame * g.numBones * 3 + bone * 3).toNat 0 +
          g.frameData.getD ((frame * g.numBones * 3 + bone * 3).toNat + 1) 0 * 256 +
          g.frameData.getD ((frame * g.numBones * 3 + bone * 3).toNat + 2) 0 * 65536 ∧
      (g.bonePool.length < readFrameIndex g frame bone * 14 + 14 →
        getBoneTransform g frame bone = none) ∧
      (readFrameIndex g frame bone * 14 + 14 ≤ g.bonePool.length →
        getBoneTransform g frame bone =
          some (decompressBone
            ((g.bonePool.drop (readFrameIndex g frame bone * 14)).take 14)) ∧
        ((g.bonePool.drop (readFrameIndex g frame bone * 14)).take 14).length = 14)) := by
  constructor
  · intro h
    unfold getBoneTransform
    rw [if_pos h]
  · intro hf0 hf1 hb0 hb1
    have hnot : ¬(frame < 0 ∨ g.numFrames ≤ frame ∨ bone < 0 ∨ g.numBones ≤ bone) := by
      push_neg
      exact ⟨hf0, hf1, hb0, hb1⟩
    have hnb : (0 : ℤ) < g.numBones := lt_of_le_of_lt hb0 hb1
    have hoffZ : frame * g.numBones * 3 + bone * 3 + 3 ≤
        g.numFrames * g.numBones * 3 := by
      have h1 : frame + 1 ≤ g.numFrames := by omega
      have h2 : bone * 3 + 3 ≤ g.numBones * 3 := by omega
      have h3 : (frame + 1) * g.numBones ≤ g.numFrames * g.numBones :=
        mul_le_mul_of_nonneg_right h1 (le_of_lt hnb)
      nlinarith
    have hoff0 : (0 : ℤ) ≤ frame * g.numBones * 3 + bone * 3 := by
      have := mul_nonneg (mul_nonneg hf0 (le_of_lt hnb)) (by norm_num : (0:ℤ) ≤ 3)
      have := mul_nonneg hb0 (by norm_num : (0:ℤ) ≤ 3)
      linarith
    have hbound : (frame * g.numBones * 3 + bone * 3).toNat + 3 ≤ g.frameData.length := by
      rw [hsize]
      unfold frameDataSize
      omega
    have hread : readFrameIndex g frame bone =
        g.frameData.getD (frame * g.numBones * 3 + bone * 3).toNat 0 +
          g.frameData.getD ((frame * g.numBones * 3 + bone * 3).toNat + 1) 0 * 256 +
          g.frameData.getD ((frame * g.numBones * 3 + bone * 3).toNat + 2) 0 * 65536 := by
      unfold readFrameIndex
      rw [if_neg hnot]
      dsimp only
      rw [if_neg (show ¬((frame * g.numBones * 3 + bone * 3).toNat + 3 > frameDataSize g) by
        unfold frameDataSize
        omega)]
    refine ⟨hbound, hread, ?_, ?_⟩
    · intro hpool
      unfold getBoneTransform
      rw [if_neg hnot]
      dsimp only
      rw [if_pos (by omega)]
    · intro hpool
      constructor
      · unfold getBoneTransform
        rw [if_neg hnot]
        dsimp only
        rw [if_neg (by omega)]
      · rw [List.length_take, List.length_drop]
        omega

theorem C8_getBoneTransform_bounds_witness :
    getBoneTransform gC1 0 0 =
      some (decompressBone
        ((gC1.bonePool.drop (readFrameIndex gC1 0 0 * 14)).take 14)) ∧
    getBoneTransform gC1 2 0 = none :=
  ⟨(((C8_getBoneTransform_bounds gC1 0 0 (by decide)).2
      (by decide) (by decide) (by decide) (by decide)).2.2.2 (by decide)).1,
   (C8_getBoneTransform_bounds gC1 2 0 (by decide)).1 (by decide)⟩

/-- C9: `ConvertPosition(x, y, z) = (x·s, z·s, −y·s)` for the fixed scale
constant `s = SCALE_FACTOR`, `ConvertQuaternion(x, y, z, w) = (x, z, −y, w)`
with no scale applied (it preserves the quaternion's squared norm), and in
particular `ConvertPosition(1, 2, 3) = (1·s, 3·s, −2·s)`. -/
theorem C9_coordinate_conversion :
    (∀ x y z : ℚ, convertPosition x y z =
      ⟨x * SCALE_FACTOR, z * SCALE_FACTOR, -y * SCALE_FACTOR⟩) ∧
    (∀ qx qy qz qw : ℚ, convertQuaternion qx qy qz qw = ⟨qx, qz, -qy, qw⟩) ∧
    (∀ q : Quat, quatNormSq (convertQuaternionQ q) = quatNormSq q) ∧
    convertPosition 1 2 3 =
      ⟨1 * SCALE_FACTOR, 3 * SCALE_FACTOR, -2 * SCALE_FACTOR⟩ := by
  refine ⟨fun x y z => rfl, fun qx qy qz qw => rfl, ?_, by norm_num [convertPosition]⟩
  intro q
  simp only [convertQuaternionQ, convertQuaternion, quatNormSq]
  ring

/-! ## Bone mapping (`bone_mapper.h`; implementation appended in
`src/scripts/platform/linux.sh`) -/

/-- `retarget::BoneMapping`. -/
structure BoneMapping where
  targetBone : String
  sourceBones : List String
  combineRotations : Bool
  correction : Quat
  hasCorrection : Bool
deriving DecidableEq

/-- `BoneMapping::is_unmapped()`. -/
def BoneMapping.isUnmapped (m : BoneMapping) : Bool := m.sourceBones.isEmpty

/-- `BoneMapping::is_combined()`. -/
def BoneMapping.isCombined (m : BoneMapping) : Bool :=
  decide (1 < m.sourceBones.length)

/-- `BoneMapper::GetMapping`: the first stored mapping whose target name
matches. -/
def getMapping (mappings : List BoneMapping) (target : String) : Option BoneMapping :=
  mappings.find? (fun m => m.targetBone == target)

/-- `BoneMapper::BuildSourceBoneMap` / `BuildTargetBoneMap`: name → index by
`std::map` assignment in index order. -/
def buildBoneMap (names : List String) : List (String × ℕ) :=
  (List.range names.length).foldl (fun m i => mapAssign m (names.getD i "") i) []

/-- `BoneMapper::GetSourceBoneIndex`: `-1` when the name is absent. -/
def getSourceBoneIndex (m : List (String × ℕ)) (name : String) : ℤ :=
  match mapFind m name with
  | some i => (i : ℤ)
  | none => -1

/-! ## Retargeter (`ozz-retarget` `main`, `src/unnamed/part_006`) -/

/-- The per-target `BoneMappingInfo` struct of `main`. -/
structure BoneMappingInfo where
  isMapped : Bool
  sourceIndices : List ℕ
  combineRotations : Bool
  correction : Quat
  hasCorrection : Bool
deriving DecidableEq

def defaultMappingInfo : BoneMappingInfo := ⟨false, [], false, Quat.id, false⟩

/-- The mapping-info precomputation of `main` (one target joint): resolve
the mapping by target name, keep only source names that resolve to an
index `≥ 0`, and record `is_combined()` along with the correction. -/
def buildMappingInfo (mappings : List BoneMapping) (srcMap : List (String × ℕ))
    (targetName : String) : BoneMappingInfo :=
  match getMapping mappings targetName with
  | some m =>
    if m.isUnmapped then defaultMappingInfo
    else
      ⟨true,
       m.sourceBones.filterMap (fun n =>
         let idx := getSourceBoneIndex srcMap n
         if 0 ≤ idx then some idx.toNat else none),
       m.isCombined, m.correction, m.hasCorrection⟩
  | none => defaultMappingInfo

/-- The precomputed `mapping_infos` array, in target joint order. -/
def retargetInfos (srcSkel targetSkel : OzzSkeleton)
    (mappings : List BoneMapping) : List BoneMappingInfo :=
  (List.range targetSkel.numJoints).map (fun t =>
    buildMappingInfo mappings (buildBoneMap srcSkel.jointNames)
      (targetSkel.jointNames.getD t ""))

/-- The per-frame `source_world_rotations` pass: world rotations in source
joint index order, `world[i] = world[parent[i]] * local[i]` (the C++ reads
the parent entry of the array being filled, valid because `ozz` stores
parents before children; an out-of-range parent read is modelled by the
identity default). -/
def sourceWorldRotations (srcParents : List ℤ) (locals : List Transform) : List Quat :=
  (List.range srcParents.length).foldl (fun acc i =>
    let localRot := (locals.getD i Transform.id).rotation
    let parent := srcParents.getD i (-1)
    acc ++ [if parent < 0 then localRot
            else quatMultiply (acc.getD parent.toNat Quat.id) localRot]) []

/-- `WorldToLocal`: `inv(parent_world) * world`. -/
def worldToLocal (world parentWorld : Quat) : Quat :=
  quatMultiply (quatConjugate parentWorld) world

/-- The per-target-joint body of the retarget frame loop: rest pose for
unmapped joints; otherwise resolve the source world rotation (single or
combined) and the translation of the first resolved source bone, apply the
optional correction, and convert to target-local space. Returns the
emitted translation/rotation/scale triple. -/
def retargetJointValue (info : BoneMappingInfo) (srcParents : List ℤ)
    (locals : List Transform) (srcWorldRots : List Quat)
    (restPose : Transform) (targetParentWorld : Quat) : Transform :=
  if info.isMapped = false ∨ info.sourceIndices.isEmpty then restPose
  else
    let resolved :=
      if info.combineRotations = true ∧ 1 < info.sourceIndices.length then
        let first := info.sourceIndices.headD 0
        let combinedLocal := (info.sourceIndices.drop 1).foldl
          (fun acc s => quatMultiply acc (locals.getD s Transform.id).rotation)
          (locals.getD first Transform.id).rotation
        let firstParent := srcParents.getD first (-1)
        let parentWorld := if firstParent < 0 then Quat.id
          else srcWorldRots.getD firstParent.toNat Quat.id
        (quatMultiply parentWorld combinedLocal,
         (locals.getD first Transform.id).translation)
      else
        let srcIdx := info.sourceIndices.headD 0
        (srcWorldRots.getD srcIdx Quat.id,
         (locals.getD srcIdx Transform.id).translation)
    let sourceWorld :=
      if info.hasCorrection = true then
        retargetQuatNormalize (quatMultiply resolved.1 info.correction)
      else resolved.1
    ⟨resolved.2,
     retargetQuatNormalize (worldToLocal sourceWorld targetParentWorld),
     Vec3.one⟩

/-- The target-joint loop of one retarget frame, processed up to joint `n`:
returns the emitted transforms so far and the per-frame
`target_world_rotations` accumulated for use by later children. -/
def retargetJoints (infos : List BoneMappingInfo) (targetSkel : OzzSkeleton)
    (srcParents : List ℤ) (locals : List Transform) (srcWorldRots : List Quat) :
    ℕ → List Transform × List Quat
  | 0 => ([], [])
  | n + 1 =>
    let prev := retargetJoints infos targetSkel srcParents locals srcWorldRots n
    let targetParent := targetSkel.jointParents.getD n (-1)
    let targetParentWorld := if targetParent < 0 then Quat.id
      else prev.2.getD targetParent.toNat Quat.id
    let v := retargetJointValue (infos.getD n defaultMappingInfo) srcParents locals
      srcWorldRots (targetSkel.jointRestPoses.getD n Transform.id) targetParentWorld
    (prev.1 ++ [v], prev.2 ++ [quatMultiply targetParentWorld v.rotation])

/-- One full retarget frame: the emitted transform per target joint. The
source animation sampling is the external `ozz::animation::SamplingJob`;
it is modelled by the `locals` oracle already sampled for this frame. -/
def retargetFrame (infos : List BoneMappingInfo) (targetSkel srcSkel : OzzSkeleton)
    (locals : List Transform) : List Transform :=
  (retargetJoints infos targetSkel srcSkel.jointParents locals
    (sourceWorldRotations srcSkel.jointParents locals) targetSkel.numJoints).1

/-- `num_keyframes = static_cast<int>(duration * sample_rate) + 1`; the
float-to-int truncation agrees with the floor on the nonnegative products
that occur. -/
def numKeyframes (duration sampleRate : ℚ) : ℕ :=
  (duration * sampleRate).floor.toNat + 1

/-- `time_step = duration / max(1, num_keyframes - 1)`. -/
def timeStep (duration sampleRate : ℚ) : ℚ :=
  duration / ((max 1 (numKeyframes duration sampleRate - 1) : ℕ) : ℚ)

/-- The whole retarget loop of `main`: one keyframe per target joint per
frame at time `frame * time_step`, with values from `retargetFrame`.
`sample` is the external sampling oracle (frame index ↦ source local
transforms); the C++ aborts on a sampling failure, a path the total oracle
does not model. -/
def retargetAnimation (srcSkel targetSkel : OzzSkeleton)
    (mappings : List BoneMapping) (sample : ℕ → List Transform)
    (duration sampleRate : ℚ) : RawAnimation :=
  let infos := retargetInfos srcSkel targetSkel mappings
  ⟨"retargeted", duration,
   (List.range targetSkel.numJoints).map (fun t =>
     ⟨(List.range (numKeyframes duration sampleRate)).map (fun (f : ℕ) =>
        ⟨(f : ℚ) * timeStep duration sampleRate,
         ((retargetFrame infos targetSkel srcSkel (sample f)).getD t
           Transform.id).translation⟩),
      (List.range (numKeyframes duration sampleRate)).map (fun (f : ℕ) =>
        ⟨(f : ℚ) * timeStep duration sampleRate,
         ((retargetFrame infos targetSkel srcSkel (sample f)).getD t
           Transform.id).rotation⟩),
      (List.range (numKeyframes duration sampleRate)).map (fun (f : ℕ) =>
        ⟨(f : ℚ) * timeStep duration sampleRate,
         ((retargetFrame infos targetSkel srcSkel (sample f)).getD t
           Transform.id).scale⟩)⟩)⟩

theorem quatMultiply_id_left (q : Quat) : quatMultiply Quat.id q = q := by
  cases q
  simp [quatMultiply, Quat.id]

theorem retargetJoints_fst_length (infos : List BoneMappingInfo)
    (targetSkel : OzzSkeleton) (srcParents : List ℤ) (locals : List Transform)
    (srcWorldRots : List Quat) (n : ℕ) :
    (retargetJoints infos targetSkel srcParents locals srcWorldRots n).1.length = n := by
  induction n with
  | zero => rfl
  | succ n ih =>
    simp only [retargetJoints, List.length_append, List.length_singleton, ih]

/-- The `target_parent_world` value read when target joint `t` is
processed. -/
def targetParentWorldAt (infos : List BoneMappingInfo) (targetSkel : OzzSkeleton)
    (srcParents : List ℤ) (locals : List Transform) (srcWorldRots : List Quat)
    (t : ℕ) : Quat :=
  let targetParent := targetSkel.jointParents.getD t (-1)
  if targetParent < 0 then Quat.id
  else (retargetJoints infos targetSkel srcParents locals srcWorldRots t).2.getD
    targetParent.toNat Quat.id

/-- Element `t` of the frame loop's output is the per-joint value computed
with the accumulated target parent world rotation. -/
theorem retargetJoints_getD (infos : List BoneMappingInfo)
    (targetSkel : OzzSkeleton) (srcParents : List ℤ) (locals : List Transform)
    (srcWorldRots : List Quat) (t n : ℕ) (htn : t < n) :
    (retargetJoints infos targetSkel srcParents locals srcWorldRots n).1.getD t
      Transform.id =
    retargetJointValue (infos.getD t defaultMappingInfo) srcParents locals
      srcWorldRots (targetSkel.jointRestPoses.getD t Transform.id)
      (targetParentWorldAt infos targetSkel srcParents locals srcWorldRots t) := by
  induction n with
  | zero => omega
  | succ n ih =>
    rcases Nat.lt_succ_iff_lt_or_eq.mp htn with h | h
    · rw [show retargetJoints infos targetSkel srcParents locals srcWorldRots (n + 1) =
        ((retargetJoints infos targetSkel srcParents locals srcWorldRots n).1 ++
          [retargetJointValue (infos.getD n defaultMappingInfo) srcParents locals
            srcWorldRots (targetSkel.jointRestPoses.getD n Transform.id)
            (targetParentWorldAt infos targetSkel srcParents locals srcWorldRots n)],
         (retargetJoints infos targetSkel srcParents locals srcWorldRots n).2 ++
          [quatMultiply
            (targetParentWorldAt infos targetSkel srcParents locals srcWorldRots n)
            (retargetJointValue (infos.getD n defaultMappingInfo) srcParents locals
              srcWorldRots (targetSkel.jointRestPoses.getD n Transform.id)
              (targetParentWorldAt infos targetSkel srcParents locals
                srcWorldRots n)).rotation]) from rfl]
      dsimp only
      rw [List.getD_eq_getElem?_getD,
        List.getElem?_append_left (by rw [retargetJoints_fst_length]; exact h),
        ← List.getD_eq_getElem?_getD]
      exact ih h
    · subst h
      rw [show retargetJoints infos targetSkel srcParents locals srcWorldRots (t + 1) =
        ((retargetJoints infos targetSkel srcParents locals srcWorldRots t).1 ++
          [retargetJointValue (infos.getD t defaultMappingInfo) srcParents locals
            srcWorldRots (targetSkel.jointRestPoses.getD t Transform.id)
            (targetParentWorldAt infos targetSkel srcParents locals srcWorldRots t)],
         (retargetJoints infos targetSkel srcParents locals srcWorldRots t).2 ++
          [quatMultiply
            (targetParentWorldAt infos targetSkel srcParents locals srcWorldRots t)
            (retargetJointValue (infos.getD t defaultMappingInfo) srcParents locals
              srcWorldRots (targetSkel.jointRestPoses.getD t Transform.id)
              (targetParentWorldAt infos targetSkel srcParents locals
                srcWorldRots t)).rotation]) from rfl]
      dsimp only
      rw [List.getD_eq_getElem?_getD,
        List.getElem?_append_right (by rw [retargetJoints_fst_length]),
        retargetJoints_fst_length]
      simp

/-- `mapping_infos[t]` for `t` in range. -/
theorem retargetInfos_getD (srcSkel targetSkel : OzzSkeleton)
    (mappings : List BoneMapping) (t : ℕ) (ht : t < targetSkel.numJoints) :
    (retargetInfos srcSkel targetSkel mappings).getD t defaultMappingInfo =
      buildMappingInfo mappings (buildBoneMap srcSkel.jointNames)
        (targetSkel.jointNames.getD t "") := by
  unfold retargetInfos
  rw [List.getD_eq_getElem?_getD, List.getElem?_map]
  simp [List.getElem?_range, ht]

/-- A target joint whose name has no mapping entry, or whose mapping's
source names all fail to resolve, yields an info treated as unmapped. -/
theorem buildMappingInfo_unmapped (mappings : List BoneMapping)
    (srcMap : List (String × ℕ)) (name : String)
    (h : match getMapping mappings name with
         | none => True
         | some m => m.sourceBones = [] ∨
             ∀ n ∈ m.sourceBones, getSourceBoneIndex srcMap n < 0) :
    (buildMappingInfo mappings srcMap name).isMapped = false ∨
    (buildMappingInfo mappings srcMap name).sourceIndices.isEmpty = true := by
  unfold buildMappingInfo
  cases hm : getMapping mappings name with
  | none => left; rfl
  | some m =>
    rw [hm] at h
    dsimp only
    rcases h with h | h
    · rw [if_pos (by simp [BoneMapping.isUnmapped, h])]
      left
      rfl
    · by_cases hu : m.isUnmapped
      · rw [if_pos hu]
        left
        rfl
      · rw [if_neg hu]
        right
        simp only [List.isEmpty_eq_true, List.filterMap_eq_nil_iff]
        intro n hn
        rw [if_neg (by have := h n hn; omega)]

theorem range_map_const {α : Type} (N : ℕ) (c : α) :
    (List.range N).map (fun _ => c) = List.replicate N c := by
  apply List.eq_replicate_iff.mpr
  constructor
  · rw [List.length_map, List.length_range]
  · intro b hb
    obtain ⟨f, _, rfl⟩ := List.mem_map.mp hb
    rfl

/-- The `t`-th output track of the retargeter, for `t` in range. -/
theorem retargetAnimation_tracks_getD (srcSkel targetSkel : OzzSkeleton)
    (mappings : List BoneMapping) (sample : ℕ → List Transform)
    (duration sampleRate : ℚ) (t : ℕ) (ht : t < targetSkel.numJoints) :
    (retargetAnimation srcSkel targetSkel mappings sample duration
        sampleRate).tracks.getD t emptyTrack =
      ⟨(List.range (numKeyframes duration sampleRate)).map (fun (f : ℕ) =>
         ⟨(f : ℚ) * timeStep duration sampleRate,
          ((retargetFrame (retargetInfos srcSkel targetSkel mappings) targetSkel
            srcSkel (sample f)).getD t Transform.id).translation⟩),
       (List.range (numKeyframes duration sampleRate)).map (fun (f : ℕ) =>
         ⟨(f : ℚ) * timeStep duration sampleRate,
          ((retargetFrame (retargetInfos srcSkel targetSkel mappings) targetSkel
            srcSkel (sample f)).getD t Transform.id).rotation⟩),
       (List.range (numKeyframes duration sampleRate)).map (fun (f : ℕ) =>
         ⟨(f : ℚ) * timeStep duration sampleRate,
          ((retargetFrame (retargetInfos srcSkel targetSkel mappings) targetSkel
            srcSkel (sample f)).getD t Transform.id).scale⟩)⟩ := by
  unfold retargetAnimation
  dsimp only
  rw [List.getD_eq_getElem?_getD, List.getElem?_map]
  simp [List.getElem?_range, ht]

/-! ## C4 -/

/-- C4: when every target joint is unmapped — its name has no mapping
entry, or its mapping's source names all fail to resolve — every emitted
keyframe at every sampled frame carries that joint's rest-pose local
transform (translation, rotation, scale) copied verbatim from the target
skeleton, independent of the frame, so the output reproduces the target
rest pose at every sampled frame. -/
theorem C4_all_unmapped_rest_pose (srcSkel targetSkel : OzzSkeleton)
    (mappings : List BoneMapping) (sample : ℕ → List Transform)
    (duration sampleRate : ℚ)
    (hun : ∀ t, t < targetSkel.numJoints →
      (match getMapping mappings (targetSkel.jointNames.getD t "") with
       | none => True
       | some m => m.sourceBones = [] ∨
           ∀ n ∈ m.sourceBones,
             getSourceBoneIndex (buildBoneMap srcSkel.jointNames) n < 0)) :
    ∀ t, t < targetSkel.numJoints →
      (∀ locals,
        (retargetFrame (retargetInfos srcSkel targetSkel mappings) targetSkel
            srcSkel locals).getD t Transform.id =
          targetSkel.jointRestPoses.getD t Transform.id) ∧
      ((retargetAnimation srcSkel targetSkel mappings sample duration
          sampleRate).tracks.getD t emptyTrack).translations.map
          TranslationKey.value =
        List.replicate (numKeyframes duration sampleRate)
          (targetSkel.jointRestPoses.getD t Transform.id).translation ∧
      ((retargetAnimation srcSkel targetSkel mappings sample duration
          sampleRate).tracks.getD t emptyTrack).rotations.map
          RotationKey.value =
        List.replicate (numKeyframes duration sampleRate)
          (targetSkel.jointRestPoses.getD t Transform.id).rotation ∧
      ((retargetAnimation srcSkel targetSkel mappings sample duration
          sampleRate).tracks.getD t emptyTrack).scales.map ScaleKey.value =
        List.replicate (numKeyframes duration sampleRate)
          (targetSkel.jointRestPoses.getD t Transform.id).scale := by
  intro t ht
  have hframe : ∀ locals,
      (retargetFrame (retargetInfos srcSkel targetSkel mappings) targetSkel
        srcSkel locals).getD t Transform.id =
      targetSkel.jointRestPoses.getD t Transform.id := by
    intro locals
    unfold retargetFrame
    rw [retargetJoints_getD _ _ _ _ _ t targetSkel.numJoints ht,
      retargetInfos_getD srcSkel targetSkel mappings t ht]
    have hinfo := buildMappingInfo_unmapped mappings
      (buildBoneMap srcSkel.jointNames) (targetSkel.jointNames.getD t "")
      (hun t ht)
    unfold retargetJointValue
    rcases hinfo with h | h
    · rw [if_pos (Or.inl h)]
    · rw [if_pos (Or.inr h)]
  refine ⟨hframe, ?_, ?_, ?_⟩ <;>
    rw [retargetAnimation_tracks_getD srcSkel targetSkel mappings sample
      duration sampleRate t ht] <;>
    dsimp only <;>
    rw [List.map_map] <;>
    rw [List.map_congr_left (fun f _ => by
      simp only [Function.comp]
      rw [hframe (sample f)])] <;>
    exact range_map_const _ _

/-- Concrete retarget inputs for the witnesses: a one-joint source, a
one-joint target with a distinctive rest pose, and no mapping entries. -/
def srcSkelR : OzzSkeleton := ⟨["pelvis"], [-1], [Transform.id]⟩

def targetSkelR : OzzSkeleton :=
  ⟨["Hips"], [-1], [⟨⟨1, 2, 3⟩, Quat.id, Vec3.one⟩]⟩

theorem C4_all_unmapped_rest_pose_witness :
    (retargetFrame (retargetInfos srcSkelR targetSkelR []) targetSkelR
        srcSkelR [Transform.id]).getD 0 Transform.id =
      targetSkelR.jointRestPoses.getD 0 Transform.id ∧
    ((retargetAnimation srcSkelR targetSkelR [] (fun _ => [Transform.id]) 1
        2).tracks.getD 0 emptyTrack).translations.map TranslationKey.value =
      List.replicate (numKeyframes 1 2)
        (targetSkelR.jointRestPoses.getD 0 Transform.id).translation ∧
    ((retargetAnimation srcSkelR targetSkelR [] (fun _ => [Transform.id]) 1
        2).tracks.getD 0 emptyTrack).rotations.map RotationKey.value =
      List.replicate (numKeyframes 1 2)
        (targetSkelR.jointRestPoses.getD 0 Transform.id).rotation ∧
    ((retargetAnimation srcSkelR targetSkelR [] (fun _ => [Transform.id]) 1
        2).tracks.getD 0 emptyTrack).scales.map ScaleKey.value =
      List.replicate (numKeyframes 1 2)
        (targetSkelR.jointRestPoses.getD 0 Transform.id).scale := by
  obtain ⟨h1, h2, h3, h4⟩ :=
    C4_all_unmapped_rest_pose srcSkelR targetSkelR [] (fun _ => [Transform.id])
      1 2 (fun t _ => trivial) 0 (by decide)
  exact ⟨h1 [Transform.id], h2, h3, h4⟩

/-! ## C5 -/

/-- Written from the claim's words, for comparison with the code: the
product of the resolved source bones' sampled local rotations, multiplied
in listed order (starting from the identity). -/
def specCombinedLocalRotation (locals : List Transform) (indices : List ℕ) : Quat :=
  indices.foldl
    (fun acc s => quatMultiply acc (locals.getD s Transform.id).rotation) Quat.id

/-- Written from the claim's words: the listed-order product composed with
the world rotation of the first listed bone's parent. -/
def specCombinedSourceWorld (srcParents : List ℤ) (locals : List Transform)
    (srcWorldRots : List Quat) (indices : List ℕ) : Quat :=
  let first := indices.headD 0
  let firstParent := srcParents.getD first (-1)
  let parentWorld := if firstParent < 0 then Quat.id
    else srcWorldRots.getD firstParent.toNat Quat.id
  quatMultiply parentWorld (specCombinedLocalRotation locals indices)

/-- The correction step as the claim describes it: right-multiply and
normalize when a correction is present. -/
def specApplyCorrection (info : BoneMappingInfo) (q : Quat) : Quat :=
  if info.hasCorrection = true then
    retargetQuatNormalize (quatMultiply q info.correction)
  else q

theorem specCombinedLocalRotation_cons (locals : List Transform) (i0 : ℕ)
    (rest : List ℕ) :
    specCombinedLocalRotation locals (i0 :: rest) =
      rest.foldl (fun acc s => quatMultiply acc (locals.getD s Transform.id).rotation)
        (locals.getD i0 Transform.id).rotation := by
  unfold specCombinedLocalRotation
  rw [List.foldl_cons, quatMultiply_id_left]

/-- Having at least two resolved source bones forces the combined flag and
the mapped flag. -/
theorem buildMappingInfo_combined (mappings : List BoneMapping)
    (srcMap : List (String × ℕ)) (name : String)
    (h2 : 2 ≤ (buildMappingInfo mappings srcMap name).sourceIndices.length) :
    (buildMappingInfo mappings srcMap name).combineRotations = true ∧
    (buildMappingInfo mappings srcMap name).isMapped = true := by
  unfold buildMappingInfo at h2 ⊢
  cases hm : getMapping mappings name with
  | none =>
    rw [hm] at h2
    exact absurd h2 (by simp [defaultMappingInfo])
  | some m =>
    rw [hm] at h2
    dsimp only at h2 ⊢
    by_cases hu : m.isUnmapped = true
    · rw [if_pos hu] at h2
      exact absurd h2 (by simp [defaultMappingInfo])
    · rw [if_neg hu] at h2 ⊢
      refine ⟨?_, rfl⟩
      simp only [BoneMapping.isCombined, decide_eq_true_eq]
      have hle := List.length_filterMap_le
        (fun n => let idx := getSourceBoneIndex srcMap n;
          if 0 ≤ idx then some idx.toNat else none) m.sourceBones
      dsimp only at h2 hle
      omega

/-- C5: for a target joint whose mapping resolves more than one source
bone, the retargeter multiplies the listed source bones' sampled local
rotations in listed order, composes the product with the world rotation of
the first listed bone's parent to obtain the source world rotation (which
then receives the optional correction and the conversion to target-local
space), and takes the translation from the first listed source bone only;
more than one resolved bone also forces the combined flag. -/
theorem C5_combined_mapping (mappings : List BoneMapping)
    (srcMap : List (String × ℕ)) (name : String) (srcParents : List ℤ)
    (locals : List Transform) (srcWorldRots : List Quat)
    (restPose : Transform) (targetParentWorld : Quat)
    (h2 : 2 ≤ (buildMappingInfo mappings srcMap name).sourceIndices.length) :
    (buildMappingInfo mappings srcMap name).combineRotations = true ∧
    retargetJointValue (buildMappingInfo mappings srcMap name) srcParents
        locals srcWorldRots restPose targetParentWorld =
      ⟨(locals.getD
          ((buildMappingInfo mappings srcMap name).sourceIndices.headD 0)
          Transform.id).translation,
       retargetQuatNormalize (worldToLocal
         (specApplyCorrection (buildMappingInfo mappings srcMap name)
           (specCombinedSourceWorld srcParents locals srcWorldRots
             (buildMappingInfo mappings srcMap name).sourceIndices))
         targetParentWorld),
       Vec3.one⟩ := by
  obtain ⟨hcomb, hmap⟩ := buildMappingInfo_combined mappings srcMap name h2
  refine ⟨hcomb, ?_⟩
  unfold retargetJointValue
  rw [if_neg (by
    rw [hmap]
    simp only [Bool.true_eq_false, false_or, List.isEmpty_eq_true]
    intro hnil
    rw [hnil] at h2
    simp at h2)]
  dsimp only
  rw [if_pos ⟨hcomb, by omega⟩]
  obtain ⟨i0, rest, hcons⟩ :
      ∃ i0 rest, (buildMappingInfo mappings srcMap name).sourceIndices =
        i0 :: rest := by
    cases hx : (buildMappingInfo mappings srcMap name).sourceIndices with
    | nil => rw [hx] at h2; simp at h2
    | cons a l => exact ⟨a, l, rfl⟩
  rw [hcons]
  unfold specApplyCorrection specCombinedSourceWorld
  rw [specCombinedLocalRotation_cons]
  rfl

theorem C5_combined_mapping_witness :
    (buildMappingInfo [⟨"Spine", ["a", "b"], true, Quat.id, false⟩]
      (buildBoneMap ["a", "b"]) "Spine").combineRotations = true ∧
    retargetJointValue
        (buildMappingInfo [⟨"Spine", ["a", "b"], true, Quat.id, false⟩]
          (buildBoneMap ["a", "b"]) "Spine")
        [-1, 0] [Transform.id, Transform.id] [Quat.id, Quat.id]
        Transform.id Quat.id =
      ⟨(List.getD [Transform.id, Transform.id]
          ((buildMappingInfo [⟨"Spine", ["a", "b"], true, Quat.id, false⟩]
            (buildBoneMap ["a", "b"]) "Spine").sourceIndices.headD 0)
          Transform.id).translation,
       retargetQuatNormalize (worldToLocal
         (specApplyCorrection
           (buildMappingInfo [⟨"Spine", ["a", "b"], true, Quat.id, false⟩]
             (buildBoneMap ["a", "b"]) "Spine")
           (specCombinedSourceWorld [-1, 0] [Transform.id, Transform.id]
             [Quat.id, Quat.id]
             (buildMappingInfo [⟨"Spine", ["a", "b"], true, Quat.id, false⟩]
               (buildBoneMap ["a", "b"]) "Spine").sourceIndices))
         Quat.id),
       Vec3.one⟩ :=
  C5_combined_mapping [⟨"Spine", ["a", "b"], true, Quat.id, false⟩]
    (buildBoneMap ["a", "b"]) "Spine" [-1, 0] [Transform.id, Transform.id]
    [Quat.id, Quat.id] Transform.id Quat.id (by decide)

/-! ## C10 -/

/-- C10: for every mapped target joint (single-source or combined), the
translation the retargeter emits at a frame is the sampled first resolved
source bone's parent-local translation copied verbatim — no coordinate
conversion, no scaling, no correction, and no re-expression in the target
parent's frame — and the emitted scale is unit; only the rotation
undergoes the conversion to target-local space. -/
theorem C10_mapped_translation_verbatim (srcSkel targetSkel : OzzSkeleton)
    (mappings : List BoneMapping) (locals : List Transform) (t : ℕ)
    (ht : t < targetSkel.numJoints)
    (hm : ((retargetInfos srcSkel targetSkel mappings).getD t
      defaultMappingInfo).isMapped = true)
    (hne : ((retargetInfos srcSkel targetSkel mappings).getD t
      defaultMappingInfo).sourceIndices ≠ []) :
    ((retargetFrame (retargetInfos srcSkel targetSkel mappings) targetSkel
        srcSkel locals).getD t Transform.id).translation =
      (locals.getD
        (((retargetInfos srcSkel targetSkel mappings).getD t
          defaultMappingInfo).sourceIndices.headD 0) Transform.id).translation ∧
    ((retargetFrame (retargetInfos srcSkel targetSkel mappings) targetSkel
        srcSkel locals).getD t Transform.id).scale = Vec3.one := by
  unfold retargetFrame
  rw [retargetJoints_getD _ _ _ _ _ t targetSkel.numJoints ht]
  unfold retargetJointValue
  rw [if_neg (by
    rw [hm]
    simp only [Bool.true_eq_false, false_or, List.isEmpty_eq_true]
    exact hne)]
  dsimp only
  split_ifs with hc <;> constructor <;> rfl

def mappingsR : List BoneMapping := [⟨"Hips", ["pelvis"], false, Quat.id, false⟩]

theorem C10_mapped_translation_verbatim_witness :
    ((retargetFrame (retargetInfos srcSkelR targetSkelR mappingsR) targetSkelR
        srcSkelR [⟨⟨7, 8, 9⟩, Quat.id, Vec3.one⟩]).getD 0 Transform.id).translation =
      (List.getD [⟨⟨7, 8, 9⟩, Quat.id, Vec3.one⟩]
        (((retargetInfos srcSkelR targetSkelR mappingsR).getD 0
          defaultMappingInfo).sourceIndices.headD 0) Transform.id).translation ∧
    ((retargetFrame (retargetInfos srcSkelR targetSkelR mappingsR) targetSkelR
        srcSkelR [⟨⟨7, 8, 9⟩, Quat.id, Vec3.one⟩]).getD 0 Transform.id).scale =
      Vec3.one :=
  C10_mapped_translation_verbatim srcSkelR targetSkelR mappingsR
    [⟨⟨7, 8, 9⟩, Quat.id, Vec3.one⟩] 0 (by decide) (by decide) (by decide)

end GlaVerify
